import Mathlib

/-!
A shallow embedding of the MDCUN training script `src/train.py`.

The script's `main` builds data loaders, model, optimizer and metric
collections, then runs a step-indexed training loop: a periodic
checkpoint, one gradient step per iteration, learning-rate decay,
windowed metric reporting, a validation sub-loop and a test sub-loop,
each gated by interval conditions on the step counter, plus best-PSNR
tracking for validation and test that gates extra checkpoint saves.

External collaborators (model forward/backward, optimizer, the torch
metric engines, the datasets) are opaque; their numeric outputs are
supplied by an `Env` of oracles, and the mutable torch objects
(`model.state_dict()`, `optimizer.state_dict()`, the LR scheduler) are
tracked as version counters that the optimizer step and the scheduler
step advance.  Losses and metric values are rationals.
-/

namespace MDCUN

/-- One metric record appended to a history list, like the dictionary
`{'loss': …, 'psnr': …, 'ssim': …}` built at train.py lines 142-144,
183-185 and 234-236. -/
structure Snapshot where
  loss : ℚ
  psnr : ℚ
  ssim : ℚ
deriving DecidableEq

/-- Which call site produced a saved checkpoint: the periodic save at
line 100, the best-evaluation save at lines 207-208, or the best-test
save at lines 258-259. -/
inductive Cause where
  | periodic
  | bestEval
  | bestTest
deriving DecidableEq

/-- The checkpoint dictionary of train.py.  The periodic and best-eval
bundles (lines 94-99 and 201-206) carry all three metric histories;
in the best-test bundle (lines 252-257) the `'val_metrics'` entry is
commented out in the source, so its validation history is `none`. -/
structure Checkpoint where
  step : ℕ
  state_dict : ℕ
  optimizer : ℕ
  tr_metrics : List Snapshot
  val_metrics : Option (List Snapshot)
  test_metrics : List Snapshot
deriving DecidableEq

/-- The run-start constants of train.py lines 71-79 and 86, kept
symbolic so the scheduling conditions can be stated for any values. -/
structure Config where
  steps : ℕ
  save_interval : ℕ
  report_interval : ℕ
  test_intervals : List ℕ
  evaluation_interval : List ℕ
  lr_decay_intervals : ℕ
  val_steps : ℕ
deriving DecidableEq

/-- Oracles for the external collaborators: loader lengths, the
training loss produced at each step, the per-event validation and test
losses (indexed by the event's step and the position inside the
sub-loop), and the cumulative `compute()` outputs of the three torch
metric collections at each flush (PSNR and SSIM are not plain means of
per-batch values, so each flushed value is its own oracle). -/
structure Env where
  trainLen : ℕ
  valLen : ℕ
  testLen : ℕ
  trainLoss : ℕ → ℚ
  trPsnr : ℕ → ℚ
  trSsim : ℕ → ℚ
  valLoss : ℕ → ℕ → ℚ
  valPsnr : ℕ → ℚ
  valSsim : ℕ → ℚ
  testLoss : ℕ → ℕ → ℚ
  testPsnr : ℕ → ℚ
  testSsim : ℕ → ℚ

/-- The mutable state of `main`'s training loop: the three loss
accumulators and metric histories (lines 62-67), the two best scores
(lines 68-69), the position of the cyclic training iterator, version
counters for the trainable/optimizer/scheduler state, and the ordered
list of `save_checkpoint` calls made so far. -/
structure TrainState where
  tr_report_loss : ℚ
  val_report_loss : ℚ
  test_report_loss : ℚ
  tr_metrics : List Snapshot
  val_metrics : List Snapshot
  test_metrics : List Snapshot
  best_eval_psnr : ℚ
  best_test_psnr : ℚ
  train_pos : ℕ
  model_version : ℕ
  opt_version : ℕ
  sched_steps : ℕ
  saved : List (Cause × Checkpoint)
deriving DecidableEq

/-- The state right before the loop at line 92 starts: zero
accumulators, empty histories, best scores 0, a fresh training
iterator, and nothing saved. -/
def initState : TrainState :=
  { tr_report_loss := 0
    val_report_loss := 0
    test_report_loss := 0
    tr_metrics := []
    val_metrics := []
    test_metrics := []
    best_eval_psnr := 0
    best_test_psnr := 0
    train_pos := 0
    model_version := 0
    opt_version := 0
    sched_steps := 0
    saved := [] }

/-! ### The cyclic data feeder

Train.py draws batches with `next(it)` inside `try`, and on
`StopIteration` re-creates the iterator and calls `next` once more
(lines 102-108 for the training loader, 161-167 for the validation
loader).  `pos` counts how many batches of the current pass have been
consumed; `L` is the loader length.  A draw returns the batch's index
inside its pass, the new position, and whether a restart happened;
`none` models the unhandled `StopIteration` of an empty loader. -/
def feederNext (L pos : ℕ) : Option (ℕ × ℕ × Bool) :=
  if pos < L then some (pos, pos + 1, false)
  else if 0 < L then some (0, 1, true)
  else none

/-- The feeder position after one draw (unchanged if the draw fails). -/
def feederStep (L pos : ℕ) : ℕ :=
  match feederNext L pos with
  | some (_, p, _) => p
  | none => pos

/-- The feeder position after `n` draws from a fresh iterator. -/
def feederPos (L : ℕ) : ℕ → ℕ
  | 0 => 0
  | n + 1 => feederStep L (feederPos L n)

/-- The outcome of the `n`-th draw (0-based) from a fresh iterator:
the batch index inside its pass and whether this draw restarted. -/
def feederDraw (L n : ℕ) : Option (ℕ × Bool) :=
  match feederNext L (feederPos L n) with
  | some (b, _, r) => some (b, r)
  | none => none

/-- How many of the first `N` draws restarted the loader. -/
def countRestarts (L N : ℕ) : ℕ :=
  ((Finset.range N).filter
    (fun n => (feederDraw L n).map Prod.snd = some true)).card

lemma feederNext_lt {L pos : ℕ} (h : pos < L) :
    feederNext L pos = some (pos, pos + 1, false) := by
  simp [feederNext, h]

lemma feederNext_end {L : ℕ} (hL : 0 < L) :
    feederNext L L = some (0, 1, true) := by
  simp [feederNext, hL]

lemma succ_mod (L m : ℕ) (hL : 0 < L) :
    (m + 1) % L = if m % L + 1 = L then 0 else m % L + 1 := by
  have hlt : m % L < L := Nat.mod_lt _ hL
  have key : (m + 1) % L = (m % L + 1) % L := by
    conv_lhs => rw [← Nat.mod_add_div m L, Nat.add_right_comm]
    exact Nat.add_mul_mod_self_left _ _ _
  by_cases h : m % L + 1 = L
  · rw [if_pos h, key, h, Nat.mod_self]
  · rw [if_neg h, key]
    exact Nat.mod_eq_of_lt (by omega)

lemma feederPos_eq (L : ℕ) (hL : 0 < L) :
    ∀ n, feederPos L n = if n = 0 then 0 else (n - 1) % L + 1 := by
  intro n
  induction n with
  | zero => simp [feederPos]
  | succ m ih =>
    rw [if_neg (Nat.succ_ne_zero m)]
    show feederStep L (feederPos L m) = (m + 1 - 1) % L + 1
    rw [ih]
    by_cases hm : m = 0
    · subst hm
      simp [feederStep, feederNext_lt hL]
    · rw [if_neg hm]
      have hlt : (m - 1) % L < L := Nat.mod_lt _ hL
      have hms : m = (m - 1) + 1 := by omega
      by_cases hend : (m - 1) % L + 1 = L
      · rw [show m + 1 - 1 = m from rfl, hms,
          succ_mod L (m - 1) hL, if_pos hend]
        simp [feederStep, hend, feederNext_end hL]
      · have hplt : (m - 1) % L + 1 < L := by omega
        rw [show m + 1 - 1 = m from rfl, hms,
          succ_mod L (m - 1) hL, if_neg hend]
        simp [feederStep, feederNext_lt hplt]

lemma feederDraw_eq (L : ℕ) (hL : 0 < L) (n : ℕ) :
    feederDraw L n = some (n % L, decide (n ≠ 0 ∧ n % L = 0)) := by
  rcases n with _ | m
  · simp [feederDraw, feederPos, feederNext_lt hL, Nat.zero_mod]
  · rw [feederDraw, show feederPos L (m + 1) = feederStep L (feederPos L m)
      from rfl]
    have hlt : m % L < L := Nat.mod_lt _ hL
    have hpos : feederPos L m = if m = 0 then 0 else (m - 1) % L + 1 :=
      feederPos_eq L hL m
    have hstep : feederStep L (feederPos L m) = m % L + 1 := by
      by_cases hm : m = 0
      · subst hm
        simp [hpos, feederStep, feederNext_lt hL]
      · rw [hpos, if_neg hm]
        have hql : (m - 1) % L < L := Nat.mod_lt _ hL
        have hms : m = (m - 1) + 1 := by omega
        by_cases hend : (m - 1) % L + 1 = L
        · rw [hms, succ_mod L (m - 1) hL, if_pos hend]
          simp [feederStep, hend, feederNext_end hL]
        · rw [hms, succ_mod L (m - 1) hL, if_neg hend]
          simp [feederStep, feederNext_lt (show (m - 1) % L + 1 < L by omega)]
    rw [hstep]
    by_cases hend : m % L + 1 = L
    · have hmod : (m + 1) % L = 0 := by rw [succ_mod L m hL, if_pos hend]
      rw [hend, feederNext_end hL, hmod]
      simp
    · have hmod : (m + 1) % L = m % L + 1 := by
        rw [succ_mod L m hL, if_neg hend]
      rw [feederNext_lt (show m % L + 1 < L by omega), hmod]
      simp

/-! ### The training loop body

One iteration of the `for step in …` loop (train.py lines 92-259) is a
sequence of phases: periodic checkpoint (93-100), batch draw plus
forward/backward/optimizer step (102-124), learning-rate decay
(131-133), report flush (136-148), validation event (151-208) and test
event (211-259).  Each phase is a function on `TrainState`. -/

/-- The checkpoint dictionary of lines 94-99 and 201-206: step
counter, trainable-state and optimizer-state references, and all three
metric histories. -/
def mkCheckpoint (n : ℕ) (s : TrainState) : Checkpoint :=
  { step := n
    state_dict := s.model_version
    optimizer := s.opt_version
    tr_metrics := s.tr_metrics
    val_metrics := some s.val_metrics
    test_metrics := s.test_metrics }

/-- The checkpoint dictionary of lines 252-257: identical except that
the `'val_metrics'` entry is commented out in the source, so the
validation history is absent from the bundle. -/
def mkCheckpointNoVal (n : ℕ) (s : TrainState) : Checkpoint :=
  { step := n
    state_dict := s.model_version
    optimizer := s.opt_version
    tr_metrics := s.tr_metrics
    val_metrics := none
    test_metrics := s.test_metrics }

/-- Lines 93-100: `if step % save_interval == 0 and step != 0`, save
the periodic checkpoint. -/
def periodicPhase (c : Config) (n : ℕ) (s : TrainState) : TrainState :=
  if n % c.save_interval = 0 ∧ n ≠ 0 then
    { s with saved := s.saved ++ [(Cause.periodic, mkCheckpoint n s)] }
  else s

/-- Lines 102-124: draw one batch from the cyclic training feeder,
forward pass, accumulate `tr_report_loss += tr_loss`, backward pass
and `optimizer.step()` (which advance the trainable and optimizer
state). -/
def trainPhase (e : Env) (n : ℕ) (s : TrainState) : TrainState :=
  { s with
    train_pos := feederStep e.trainLen s.train_pos
    tr_report_loss := s.tr_report_loss + e.trainLoss n
    model_version := s.model_version + 1
    opt_version := s.opt_version + 1 }

/-- Lines 131-133: `if step % lr_decay_intervals == 0 and step != 0`,
advance the LR scheduler by one step. -/
def decayPhase (c : Config) (n : ℕ) (s : TrainState) : TrainState :=
  if n % c.lr_decay_intervals = 0 ∧ n ≠ 0 then
    { s with sched_steps := s.sched_steps + 1 }
  else s

/-- Lines 136-148: `if (step + 1) % report_interval == 0 and
step != 0`, flush `tr_report_loss / report_interval` together with the
metric collection's cumulative `compute()` into the training history
and reset the accumulators. -/
def reportPhase (c : Config) (e : Env) (n : ℕ) (s : TrainState) : TrainState :=
  if (n + 1) % c.report_interval = 0 ∧ n ≠ 0 then
    { s with
      tr_metrics := s.tr_metrics ++
        [{ loss := s.tr_report_loss / (c.report_interval : ℚ)
           psnr := e.trPsnr n
           ssim := e.trSsim n }]
      tr_report_loss := 0 }
  else s

/-- The running-sum accumulation of a sub-loop (`val_report_loss +=
val_loss` over the drawn mini-batches, or `test_report_loss +=
test_loss` over the test loader). -/
def subLoopSum (f : ℕ → ℚ) (items : List ℕ) (acc : ℚ) : ℚ :=
  items.foldl (fun a i => a + f i) acc

/-- Line 156: `val_steps = val_steps if val_steps else
len(validation_loader)` — the number of validation mini-batches the
sub-loop actually consumes. -/
def effValSteps (c : Config) (e : Env) : ℕ :=
  if c.val_steps ≠ 0 then c.val_steps else e.valLen

/-- The snapshot flushed by the validation event (lines 181-185): the
accumulated loss sum is divided by `len(validation_loader)` — not by
the `val_steps` mini-batches the sub-loop consumed — and the delegate
collection supplies the cumulative PSNR and SSIM. -/
def evalFlush (c : Config) (e : Env) (n : ℕ) (s : TrainState) : Snapshot :=
  { loss := subLoopSum (e.valLoss n) (List.range (effValSteps c e))
              s.val_report_loss / (e.valLen : ℚ)
    psnr := e.valPsnr n
    ssim := e.valSsim n }

/-- The state after the validation sub-loop has flushed its snapshot
into the history and reset its loss accumulator (lines 183-191). -/
def evalAppended (c : Config) (e : Env) (n : ℕ) (s : TrainState) : TrainState :=
  { s with
    val_metrics := s.val_metrics ++ [evalFlush c e n s]
    val_report_loss := 0 }

/-- Lines 151-208: the whole validation event — run the sub-loop,
flush one snapshot, then `if val_metrics[-1]['psnr'] > best_eval_psnr`
update the best score and save the best-eval checkpoint. -/
def evalEvent (c : Config) (e : Env) (n : ℕ) (s : TrainState) : TrainState :=
  if (evalAppended c e n s).best_eval_psnr < (evalFlush c e n s).psnr then
    { evalAppended c e n s with
      best_eval_psnr := (evalFlush c e n s).psnr
      saved := (evalAppended c e n s).saved ++
        [(Cause.bestEval, mkCheckpoint n (evalAppended c e n s))] }
  else evalAppended c e n s

/-- The items of the test loader, one entry per batch; the `for` loop
at line 218 iterates over exactly this sequence, once. -/
def testSource (e : Env) : List ℕ := List.range e.testLen

/-- The snapshot flushed by the test event (lines 232-236): the
accumulated loss sum divided by `len(test_loader)`. -/
def testFlush (e : Env) (n : ℕ) (s : TrainState) : Snapshot :=
  { loss := subLoopSum (e.testLoss n) (testSource e)
              s.test_report_loss / (e.testLen : ℚ)
    psnr := e.testPsnr n
    ssim := e.testSsim n }

/-- The state after the test loop has flushed its snapshot and reset
its loss accumulator (lines 234-242). -/
def testAppended (e : Env) (n : ℕ) (s : TrainState) : TrainState :=
  { s with
    test_metrics := s.test_metrics ++ [testFlush e n s]
    test_report_loss := 0 }

/-- Lines 211-259: the whole test event — iterate the full test
loader once, flush one snapshot, then `if test_metrics[-1]['psnr'] >
best_test_psnr` update the best score and save the best-test
checkpoint (whose bundle omits the validation history). -/
def testEvent (e : Env) (n : ℕ) (s : TrainState) : TrainState :=
  if (testAppended e n s).best_test_psnr < (testFlush e n s).psnr then
    { testAppended e n s with
      best_test_psnr := (testFlush e n s).psnr
      saved := (testAppended e n s).saved ++
        [(Cause.bestTest, mkCheckpointNoVal n (testAppended e n s))] }
  else testAppended e n s

/-- Line 151: `if (step + 1) in evaluation_interval and step != 0`. -/
def evalPhase (c : Config) (e : Env) (n : ℕ) (s : TrainState) : TrainState :=
  if (n + 1) ∈ c.evaluation_interval ∧ n ≠ 0 then evalEvent c e n s else s

/-- Line 211: `if (step + 1) in test_intervals and step != 0`. -/
def testPhase (c : Config) (e : Env) (n : ℕ) (s : TrainState) : TrainState :=
  if (n + 1) ∈ c.test_intervals ∧ n ≠ 0 then testEvent e n s else s

/-- The state after one full iteration of the training loop, phases in
source order. -/
def stepState (c : Config) (e : Env) (n : ℕ) (s : TrainState) : TrainState :=
  testPhase c e n (evalPhase c e n (reportPhase c e n
    (decayPhase c n (trainPhase e n (periodicPhase c n s)))))

/-- One observable action of an iteration, in the order the loop body
performs them. -/
inductive Action where
  | checkpoint
  | drawBatch
  | gradStep
  | decay
  | report
  | evaluate
  | test
deriving DecidableEq

/-- The actions iteration `n` performs, in source order: the periodic
checkpoint before the batch is drawn, then the gradient step, then
decay, report, evaluation and test, each under its own interval
condition. -/
def stepActions (c : Config) (n : ℕ) : List Action :=
  (if n % c.save_interval = 0 ∧ n ≠ 0 then [Action.checkpoint] else []) ++
  [Action.drawBatch, Action.gradStep] ++
  (if n % c.lr_decay_intervals = 0 ∧ n ≠ 0 then [Action.decay] else []) ++
  (if (n + 1) % c.report_interval = 0 ∧ n ≠ 0 then [Action.report] else []) ++
  (if (n + 1) ∈ c.evaluation_interval ∧ n ≠ 0 then [Action.evaluate] else []) ++
  (if (n + 1) ∈ c.test_intervals ∧ n ≠ 0 then [Action.test] else [])

/-- One iteration of the loop: the successor state and the action
trace of that iteration. -/
def stepBody (c : Config) (e : Env) (n : ℕ) (s : TrainState) :
    TrainState × List Action :=
  (stepState c e n s, stepActions c n)

/-- The loop state after the first `n` iterations (steps `0 … n-1`). -/
def runSteps (c : Config) (e : Env) : ℕ → TrainState
  | 0 => initState
  | n + 1 => (stepBody c e n (runSteps c e n)).1

/-! ### Field-effect lemmas for the phases -/

section PhaseLemmas

variable (c : Config) (e : Env) (n : ℕ) (s : TrainState)

@[simp] lemma evalFlush_psnr : (evalFlush c e n s).psnr = e.valPsnr n := rfl

@[simp] lemma testFlush_psnr : (testFlush e n s).psnr = e.testPsnr n := rfl

@[simp] lemma periodicPhase_tr_metrics :
    (periodicPhase c n s).tr_metrics = s.tr_metrics := by
  unfold periodicPhase; split_ifs <;> rfl

@[simp] lemma periodicPhase_val_metrics :
    (periodicPhase c n s).val_metrics = s.val_metrics := by
  unfold periodicPhase; split_ifs <;> rfl

@[simp] lemma periodicPhase_test_metrics :
    (periodicPhase c n s).test_metrics = s.test_metrics := by
  unfold periodicPhase; split_ifs <;> rfl

@[simp] lemma periodicPhase_best_eval :
    (periodicPhase c n s).best_eval_psnr = s.best_eval_psnr := by
  unfold periodicPhase; split_ifs <;> rfl

@[simp] lemma periodicPhase_best_test :
    (periodicPhase c n s).best_test_psnr = s.best_test_psnr := by
  unfold periodicPhase; split_ifs <;> rfl

@[simp] lemma periodicPhase_val_report :
    (periodicPhase c n s).val_report_loss = s.val_report_loss := by
  unfold periodicPhase; split_ifs <;> rfl

@[simp] lemma periodicPhase_test_report :
    (periodicPhase c n s).test_report_loss = s.test_report_loss := by
  unfold periodicPhase; split_ifs <;> rfl

lemma periodicPhase_saved :
    (periodicPhase c n s).saved =
      if n % c.save_interval = 0 ∧ n ≠ 0 then
        s.saved ++ [(Cause.periodic, mkCheckpoint n s)]
      else s.saved := by
  unfold periodicPhase; split_ifs <;> rfl

@[simp] lemma trainPhase_tr_metrics :
    (trainPhase e n s).tr_metrics = s.tr_metrics := rfl

@[simp] lemma trainPhase_val_metrics :
    (trainPhase e n s).val_metrics = s.val_metrics := rfl

@[simp] lemma trainPhase_test_metrics :
    (trainPhase e n s).test_metrics = s.test_metrics := rfl

@[simp] lemma trainPhase_best_eval :
    (trainPhase e n s).best_eval_psnr = s.best_eval_psnr := rfl

@[simp] lemma trainPhase_best_test :
    (trainPhase e n s).best_test_psnr = s.best_test_psnr := rfl

@[simp] lemma trainPhase_val_report :
    (trainPhase e n s).val_report_loss = s.val_report_loss := rfl

@[simp] lemma trainPhase_test_report :
    (trainPhase e n s).test_report_loss = s.test_report_loss := rfl

@[simp] lemma trainPhase_saved : (trainPhase e n s).saved = s.saved := rfl

@[simp] lemma decayPhase_tr_metrics :
    (decayPhase c n s).tr_metrics = s.tr_metrics := by
  unfold decayPhase; split_ifs <;> rfl

@[simp] lemma decayPhase_val_metrics :
    (decayPhase c n s).val_metrics = s.val_metrics := by
  unfold decayPhase; split_ifs <;> rfl

@[simp] lemma decayPhase_test_metrics :
    (decayPhase c n s).test_metrics = s.test_metrics := by
  unfold decayPhase; split_ifs <;> rfl

@[simp] lemma decayPhase_best_eval :
    (decayPhase c n s).best_eval_psnr = s.best_eval_psnr := by
  unfold decayPhase; split_ifs <;> rfl

@[simp] lemma decayPhase_best_test :
    (decayPhase c n s).best_test_psnr = s.best_test_psnr := by
  unfold decayPhase; split_ifs <;> rfl

@[simp] lemma decayPhase_val_report :
    (decayPhase c n s).val_report_loss = s.val_report_loss := by
  unfold decayPhase; split_ifs <;> rfl

@[simp] lemma decayPhase_test_report :
    (decayPhase c n s).test_report_loss = s.test_report_loss := by
  unfold decayPhase; split_ifs <;> rfl

@[simp] lemma decayPhase_saved : (decayPhase c n s).saved = s.saved := by
  unfold decayPhase; split_ifs <;> rfl

@[simp] lemma reportPhase_val_metrics :
    (reportPhase c e n s).val_metrics = s.val_metrics := by
  unfold reportPhase; split_ifs <;> rfl

@[simp] lemma reportPhase_test_metrics :
    (reportPhase c e n s).test_metrics = s.test_metrics := by
  unfold reportPhase; split_ifs <;> rfl

@[simp] lemma reportPhase_best_eval :
    (reportPhase c e n s).best_eval_psnr = s.best_eval_psnr := by
  unfold reportPhase; split_ifs <;> rfl

@[simp] lemma reportPhase_best_test :
    (reportPhase c e n s).best_test_psnr = s.best_test_psnr := by
  unfold reportPhase; split_ifs <;> rfl

@[simp] lemma reportPhase_val_report :
    (reportPhase c e n s).val_report_loss = s.val_report_loss := by
  unfold reportPhase; split_ifs <;> rfl

@[simp] lemma reportPhase_test_report :
    (reportPhase c e n s).test_report_loss = s.test_report_loss := by
  unfold reportPhase; split_ifs <;> rfl

@[simp] lemma reportPhase_saved : (reportPhase c e n s).saved = s.saved := by
  unfold reportPhase; split_ifs <;> rfl

lemma reportPhase_tr_cases :
    (reportPhase c e n s).tr_metrics = s.tr_metrics ∨
      ∃ x, (reportPhase c e n s).tr_metrics = s.tr_metrics ++ [x] := by
  unfold reportPhase; split_ifs
  · exact Or.inr ⟨_, rfl⟩
  · exact Or.inl rfl

@[simp] lemma evalEvent_tr_metrics :
    (evalEvent c e n s).tr_metrics = s.tr_metrics := by
  unfold evalEvent; split_ifs <;> rfl

@[simp] lemma evalEvent_test_metrics :
    (evalEvent c e n s).test_metrics = s.test_metrics := by
  unfold evalEvent; split_ifs <;> rfl

@[simp] lemma evalEvent_val_metrics :
    (evalEvent c e n s).val_metrics = s.val_metrics ++ [evalFlush c e n s] := by
  unfold evalEvent; split_ifs <;> rfl

@[simp] lemma evalEvent_best_test :
    (evalEvent c e n s).best_test_psnr = s.best_test_psnr := by
  unfold evalEvent; split_ifs <;> rfl

@[simp] lemma evalEvent_val_report :
    (evalEvent c e n s).val_report_loss = 0 := by
  unfold evalEvent; split_ifs <;> rfl

@[simp] lemma evalEvent_test_report :
    (evalEvent c e n s).test_report_loss = s.test_report_loss := by
  unfold evalEvent; split_ifs <;> rfl

lemma evalEvent_best_eval :
    (evalEvent c e n s).best_eval_psnr =
      max s.best_eval_psnr (evalFlush c e n s).psnr := by
  unfold evalEvent
  have hb : (evalAppended c e n s).best_eval_psnr = s.best_eval_psnr := rfl
  split_ifs with h
  · rw [hb] at h
    exact ((max_eq_right (le_of_lt h)).symm)
  · rw [hb] at h
    exact hb.trans (max_eq_left (not_lt.mp h)).symm

lemma evalEvent_saved :
    (evalEvent c e n s).saved =
      if s.best_eval_psnr < (evalFlush c e n s).psnr then
        s.saved ++ [(Cause.bestEval, mkCheckpoint n (evalAppended c e n s))]
      else s.saved := by
  unfold evalEvent
  have hb : (evalAppended c e n s).best_eval_psnr = s.best_eval_psnr := rfl
  rw [hb]
  split_ifs <;> rfl

@[simp] lemma testEvent_tr_metrics :
    (testEvent e n s).tr_metrics = s.tr_metrics := by
  unfold testEvent; split_ifs <;> rfl

@[simp] lemma testEvent_val_metrics :
    (testEvent e n s).val_metrics = s.val_metrics := by
  unfold testEvent; split_ifs <;> rfl

@[simp] lemma testEvent_test_metrics :
    (testEvent e n s).test_metrics = s.test_metrics ++ [testFlush e n s] := by
  unfold testEvent; split_ifs <;> rfl

@[simp] lemma testEvent_best_eval :
    (testEvent e n s).best_eval_psnr = s.best_eval_psnr := by
  unfold testEvent; split_ifs <;> rfl

@[simp] lemma testEvent_val_report :
    (testEvent e n s).val_report_loss = s.val_report_loss := by
  unfold testEvent; split_ifs <;> rfl

@[simp] lemma testEvent_test_report :
    (testEvent e n s).test_report_loss = 0 := by
  unfold testEvent; split_ifs <;> rfl

lemma testEvent_best_test :
    (testEvent e n s).best_test_psnr =
      max s.best_test_psnr (testFlush e n s).psnr := by
  unfold testEvent
  have hb : (testAppended e n s).best_test_psnr = s.best_test_psnr := rfl
  split_ifs with h
  · rw [hb] at h
    exact ((max_eq_right (le_of_lt h)).symm)
  · rw [hb] at h
    exact hb.trans (max_eq_left (not_lt.mp h)).symm

lemma testEvent_saved :
    (testEvent e n s).saved =
      if s.best_test_psnr < (testFlush e n s).psnr then
        s.saved ++ [(Cause.bestTest, mkCheckpointNoVal n (testAppended e n s))]
      else s.saved := by
  unfold testEvent
  have hb : (testAppended e n s).best_test_psnr = s.best_test_psnr := rfl
  rw [hb]
  split_ifs <;> rfl

end PhaseLemmas

/-! ### Composite lemmas over a whole iteration and a whole run -/

section CompositeLemmas

variable (c : Config) (e : Env) (n : ℕ) (s : TrainState)

@[simp] lemma evalPhase_tr_metrics :
    (evalPhase c e n s).tr_metrics = s.tr_metrics := by
  unfold evalPhase; split_ifs <;> simp

@[simp] lemma evalPhase_test_metrics :
    (evalPhase c e n s).test_metrics = s.test_metrics := by
  unfold evalPhase; split_ifs <;> simp

@[simp] lemma evalPhase_best_test :
    (evalPhase c e n s).best_test_psnr = s.best_test_psnr := by
  unfold evalPhase; split_ifs <;> simp

@[simp] lemma evalPhase_test_report :
    (evalPhase c e n s).test_report_loss = s.test_report_loss := by
  unfold evalPhase; split_ifs <;> simp

@[simp] lemma testPhase_tr_metrics :
    (testPhase c e n s).tr_metrics = s.tr_metrics := by
  unfold testPhase; split_ifs <;> simp

@[simp] lemma testPhase_val_metrics :
    (testPhase c e n s).val_metrics = s.val_metrics := by
  unfold testPhase; split_ifs <;> simp

@[simp] lemma testPhase_best_eval :
    (testPhase c e n s).best_eval_psnr = s.best_eval_psnr := by
  unfold testPhase; split_ifs <;> simp

@[simp] lemma testPhase_val_report :
    (testPhase c e n s).val_report_loss = s.val_report_loss := by
  unfold testPhase; split_ifs <;> simp

lemma evalPhase_val_cases :
    (evalPhase c e n s).val_metrics = s.val_metrics ∨
      ∃ x, (evalPhase c e n s).val_metrics = s.val_metrics ++ [x] := by
  unfold evalPhase; split_ifs
  · exact Or.inr ⟨evalFlush c e n s, by simp⟩
  · exact Or.inl rfl

lemma testPhase_test_cases :
    (testPhase c e n s).test_metrics = s.test_metrics ∨
      ∃ x, (testPhase c e n s).test_metrics = s.test_metrics ++ [x] := by
  unfold testPhase; split_ifs
  · exact Or.inr ⟨testFlush e n s, by simp⟩
  · exact Or.inl rfl

lemma stepState_tr_cases :
    (stepState c e n s).tr_metrics = s.tr_metrics ∨
      ∃ x, (stepState c e n s).tr_metrics = s.tr_metrics ++ [x] := by
  unfold stepState
  rcases reportPhase_tr_cases c e n
      (decayPhase c n (trainPhase e n (periodicPhase c n s))) with h | ⟨x, h⟩
  · left
    simp [h]
  · right
    exact ⟨x, by simp [h]⟩

lemma stepState_val_cases :
    (stepState c e n s).val_metrics = s.val_metrics ∨
      ∃ x, (stepState c e n s).val_metrics = s.val_metrics ++ [x] := by
  unfold stepState
  rcases evalPhase_val_cases c e n (reportPhase c e n
      (decayPhase c n (trainPhase e n (periodicPhase c n s)))) with h | ⟨x, h⟩
  · left
    simp [h]
  · right
    exact ⟨x, by simp [h]⟩

lemma stepState_test_cases :
    (stepState c e n s).test_metrics = s.test_metrics ∨
      ∃ x, (stepState c e n s).test_metrics = s.test_metrics ++ [x] := by
  unfold stepState
  rcases testPhase_test_cases c e n (evalPhase c e n (reportPhase c e n
      (decayPhase c n (trainPhase e n (periodicPhase c n s))))) with h | ⟨x, h⟩
  · left
    rw [h]
    simp
  · right
    refine ⟨x, ?_⟩
    rw [h]
    simp

lemma stepState_hist_grow :
    s.tr_metrics <+: (stepState c e n s).tr_metrics ∧
      s.val_metrics <+: (stepState c e n s).val_metrics ∧
      s.test_metrics <+: (stepState c e n s).test_metrics := by
  refine ⟨?_, ?_, ?_⟩
  · rcases stepState_tr_cases c e n s with h | ⟨x, h⟩
    · rw [h]
    · rw [h]
      exact ⟨[x], rfl⟩
  · rcases stepState_val_cases c e n s with h | ⟨x, h⟩
    · rw [h]
    · rw [h]
      exact ⟨[x], rfl⟩
  · rcases stepState_test_cases c e n s with h | ⟨x, h⟩
    · rw [h]
    · rw [h]
      exact ⟨[x], rfl⟩

lemma runSteps_succ : runSteps c e (n + 1) = stepState c e n (runSteps c e n) :=
  rfl

lemma runSteps_hist_mono (m : ℕ) :
    ∀ n, m ≤ n →
      (runSteps c e m).tr_metrics <+: (runSteps c e n).tr_metrics ∧
      (runSteps c e m).val_metrics <+: (runSteps c e n).val_metrics ∧
      (runSteps c e m).test_metrics <+: (runSteps c e n).test_metrics := by
  intro n h
  induction n, h using Nat.le_induction with
  | base => exact ⟨⟨[], by simp⟩, ⟨[], by simp⟩, ⟨[], by simp⟩⟩
  | succ k hmk ih =>
    have hs := stepState_hist_grow c e k (runSteps c e k)
    exact ⟨ih.1.trans hs.1, ih.2.1.trans hs.2.1, ih.2.2.trans hs.2.2⟩

lemma stepState_val_report_zero (h : s.val_report_loss = 0) :
    (stepState c e n s).val_report_loss = 0 := by
  unfold stepState testPhase evalPhase
  split_ifs <;> simp [h]

lemma stepState_test_report_zero (h : s.test_report_loss = 0) :
    (stepState c e n s).test_report_loss = 0 := by
  unfold stepState testPhase evalPhase
  split_ifs <;> simp [h]

lemma runSteps_reports_zero :
    ∀ n, (runSteps c e n).val_report_loss = 0 ∧
      (runSteps c e n).test_report_loss = 0 := by
  intro n
  induction n with
  | zero => exact ⟨rfl, rfl⟩
  | succ k ih =>
    exact ⟨stepState_val_report_zero c e k _ ih.1,
      stepState_test_report_zero c e k _ ih.2⟩

end CompositeLemmas

/-! ### Best-score bookkeeping and the saved-checkpoint log -/

/-- The maximum of 0 and the `psnr` values of a history, folded left
to right. -/
def foldMaxPsnr (l : List Snapshot) : ℚ :=
  l.foldl (fun a x => max a x.psnr) 0

section BestLemmas

variable (c : Config) (e : Env) (n : ℕ) (s : TrainState)

lemma foldMaxPsnr_append (l : List Snapshot) (x : Snapshot) :
    foldMaxPsnr (l ++ [x]) = max (foldMaxPsnr l) x.psnr := by
  simp [foldMaxPsnr]

lemma stepState_best_inv (h1 : s.best_eval_psnr = foldMaxPsnr s.val_metrics)
    (h2 : s.best_test_psnr = foldMaxPsnr s.test_metrics) :
    (stepState c e n s).best_eval_psnr =
        foldMaxPsnr (stepState c e n s).val_metrics ∧
      (stepState c e n s).best_test_psnr =
        foldMaxPsnr (stepState c e n s).test_metrics := by
  unfold stepState testPhase evalPhase
  split_ifs <;>
    simp [evalEvent_best_eval, testEvent_best_test, foldMaxPsnr_append, h1, h2]

lemma stepState_best_mono :
    s.best_eval_psnr ≤ (stepState c e n s).best_eval_psnr ∧
      s.best_test_psnr ≤ (stepState c e n s).best_test_psnr := by
  unfold stepState testPhase evalPhase
  constructor <;> split_ifs <;>
    simp [evalEvent_best_eval, testEvent_best_test, le_max_left]

lemma stepState_saved_mem (p : Cause × Checkpoint)
    (hp : p ∈ (stepState c e n s).saved) :
    p ∈ s.saved ∨ p = (Cause.periodic, mkCheckpoint n s) ∨
      (((n + 1) ∈ c.evaluation_interval ∧ n ≠ 0) ∧
        p = (Cause.bestEval, mkCheckpoint n (evalAppended c e n
          (reportPhase c e n (decayPhase c n
            (trainPhase e n (periodicPhase c n s))))))) ∨
      (((n + 1) ∈ c.test_intervals ∧ n ≠ 0) ∧
        p = (Cause.bestTest, mkCheckpointNoVal n (testAppended e n
          (evalPhase c e n (reportPhase c e n (decayPhase c n
            (trainPhase e n (periodicPhase c n s)))))))) := by
  have h4 : ∀ q : Cause × Checkpoint,
      q ∈ (reportPhase c e n (decayPhase c n
        (trainPhase e n (periodicPhase c n s)))).saved →
      q ∈ s.saved ∨ q = (Cause.periodic, mkCheckpoint n s) := by
    intro q hq
    rw [reportPhase_saved, decayPhase_saved, trainPhase_saved,
      periodicPhase_saved] at hq
    by_cases hc : n % c.save_interval = 0 ∧ n ≠ 0
    · rw [if_pos hc] at hq
      rcases List.mem_append.mp hq with h | h
      · exact Or.inl h
      · exact Or.inr (List.mem_singleton.mp h)
    · rw [if_neg hc] at hq
      exact Or.inl hq
  have h5 : ∀ q : Cause × Checkpoint,
      q ∈ (evalPhase c e n (reportPhase c e n (decayPhase c n
        (trainPhase e n (periodicPhase c n s))))).saved →
      q ∈ s.saved ∨ q = (Cause.periodic, mkCheckpoint n s) ∨
        (((n + 1) ∈ c.evaluation_interval ∧ n ≠ 0) ∧
          q = (Cause.bestEval, mkCheckpoint n (evalAppended c e n
            (reportPhase c e n (decayPhase c n
              (trainPhase e n (periodicPhase c n s))))))) := by
    intro q hq
    by_cases he : (n + 1) ∈ c.evaluation_interval ∧ n ≠ 0
    · rw [evalPhase, if_pos he, evalEvent_saved] at hq
      split_ifs at hq
      · rcases List.mem_append.mp hq with h | h
        · rcases h4 q h with h | h
          · exact Or.inl h
          · exact Or.inr (Or.inl h)
        · exact Or.inr (Or.inr ⟨he, List.mem_singleton.mp h⟩)
      · rcases h4 q hq with h | h
        · exact Or.inl h
        · exact Or.inr (Or.inl h)
    · rw [evalPhase, if_neg he] at hq
      rcases h4 q hq with h | h
      · exact Or.inl h
      · exact Or.inr (Or.inl h)
  have hp6 : p ∈ (testPhase c e n (evalPhase c e n (reportPhase c e n
      (decayPhase c n (trainPhase e n (periodicPhase c n s)))))).saved := hp
  by_cases ht : (n + 1) ∈ c.test_intervals ∧ n ≠ 0
  · rw [testPhase, if_pos ht, testEvent_saved] at hp6
    split_ifs at hp6
    · rcases List.mem_append.mp hp6 with h | h
      · rcases h5 p h with h | h | h
        · exact Or.inl h
        · exact Or.inr (Or.inl h)
        · exact Or.inr (Or.inr (Or.inl h))
      · exact Or.inr (Or.inr (Or.inr ⟨ht, List.mem_singleton.mp h⟩))
    · rcases h5 p hp6 with h | h | h
      · exact Or.inl h
      · exact Or.inr (Or.inl h)
      · exact Or.inr (Or.inr (Or.inl h))
  · rw [testPhase, if_neg ht] at hp6
    rcases h5 p hp6 with h | h | h
    · exact Or.inl h
    · exact Or.inr (Or.inl h)
    · exact Or.inr (Or.inr (Or.inl h))

end BestLemmas

section SavedSpec

variable (c : Config) (e : Env) (n : ℕ) (s : TrainState)

@[simp] lemma evalAppended_tr :
    (evalAppended c e n s).tr_metrics = s.tr_metrics := rfl

@[simp] lemma evalAppended_val :
    (evalAppended c e n s).val_metrics = s.val_metrics ++ [evalFlush c e n s] :=
  rfl

@[simp] lemma evalAppended_test :
    (evalAppended c e n s).test_metrics = s.test_metrics := rfl

@[simp] lemma testAppended_tr :
    (testAppended e n s).tr_metrics = s.tr_metrics := rfl

@[simp] lemma testAppended_val :
    (testAppended e n s).val_metrics = s.val_metrics := rfl

@[simp] lemma testAppended_test :
    (testAppended e n s).test_metrics = s.test_metrics ++ [testFlush e n s] :=
  rfl

@[simp] lemma mkCheckpoint_step : (mkCheckpoint n s).step = n := rfl

@[simp] lemma mkCheckpoint_tr : (mkCheckpoint n s).tr_metrics = s.tr_metrics :=
  rfl

@[simp] lemma mkCheckpoint_val :
    (mkCheckpoint n s).val_metrics = some s.val_metrics := rfl

@[simp] lemma mkCheckpoint_test :
    (mkCheckpoint n s).test_metrics = s.test_metrics := rfl

@[simp] lemma mkCheckpointNoVal_step : (mkCheckpointNoVal n s).step = n := rfl

@[simp] lemma mkCheckpointNoVal_tr :
    (mkCheckpointNoVal n s).tr_metrics = s.tr_metrics := rfl

@[simp] lemma mkCheckpointNoVal_val :
    (mkCheckpointNoVal n s).val_metrics = none := rfl

@[simp] lemma mkCheckpointNoVal_test :
    (mkCheckpointNoVal n s).test_metrics = s.test_metrics := rfl

lemma stepState_saved_spec (p : Cause × Checkpoint)
    (hp : p ∈ (stepState c e n s).saved) :
    p ∈ s.saved ∨
      (p.2.step = n ∧
       (p.1 = Cause.bestTest → p.2.val_metrics = none) ∧
       (p.1 ≠ Cause.bestTest → ∃ v, p.2.val_metrics = some v ∧
          v <+: (stepState c e n s).val_metrics) ∧
       p.2.tr_metrics <+: (stepState c e n s).tr_metrics ∧
       p.2.test_metrics <+: (stepState c e n s).test_metrics) := by
  rcases stepState_saved_mem c e n s p hp with hold | hper | ⟨he, hbe⟩ | ⟨ht, hbt⟩
  · exact Or.inl hold
  · right
    subst hper
    have hg := stepState_hist_grow c e n s
    refine ⟨rfl, ?_, ?_, hg.1, hg.2.2⟩
    · intro h
      cases h
    · intro _
      exact ⟨s.val_metrics, rfl, hg.2.1⟩
  · right
    subst hbe
    have hval : (stepState c e n s).val_metrics =
        (reportPhase c e n (decayPhase c n (trainPhase e n
          (periodicPhase c n s)))).val_metrics ++
          [evalFlush c e n (reportPhase c e n (decayPhase c n (trainPhase e n
            (periodicPhase c n s))))] := by
      show (testPhase c e n (evalPhase c e n _)).val_metrics = _
      rw [testPhase_val_metrics, evalPhase, if_pos he, evalEvent_val_metrics]
    have htr : (stepState c e n s).tr_metrics =
        (reportPhase c e n (decayPhase c n (trainPhase e n
          (periodicPhase c n s)))).tr_metrics := by
      show (testPhase c e n (evalPhase c e n _)).tr_metrics = _
      rw [testPhase_tr_metrics, evalPhase_tr_metrics]
    refine ⟨rfl, ?_, ?_, ?_, ?_⟩
    · intro h
      cases h
    · intro _
      refine ⟨_, rfl, ?_⟩
      rw [hval]
      exact ⟨[], by simp⟩
    · rw [htr]
      exact ⟨[], by simp⟩
    · show (reportPhase c e n (decayPhase c n (trainPhase e n
        (periodicPhase c n s)))).test_metrics <+: _
      have hte : (evalPhase c e n (reportPhase c e n (decayPhase c n
          (trainPhase e n (periodicPhase c n s))))).test_metrics =
          (reportPhase c e n (decayPhase c n (trainPhase e n
            (periodicPhase c n s)))).test_metrics := by simp
      rcases testPhase_test_cases c e n (evalPhase c e n (reportPhase c e n
          (decayPhase c n (trainPhase e n (periodicPhase c n s))))) with
        h | ⟨x, h⟩
      · show _ <+: (testPhase c e n (evalPhase c e n _)).test_metrics
        rw [h, hte]
      · show _ <+: (testPhase c e n (evalPhase c e n _)).test_metrics
        rw [h, hte]
        exact ⟨[x], rfl⟩
  · right
    subst hbt
    have hte : (stepState c e n s).test_metrics =
        (evalPhase c e n (reportPhase c e n (decayPhase c n (trainPhase e n
          (periodicPhase c n s))))).test_metrics ++
          [testFlush e n (evalPhase c e n (reportPhase c e n (decayPhase c n
            (trainPhase e n (periodicPhase c n s)))))] := by
      show (testPhase c e n (evalPhase c e n _)).test_metrics = _
      rw [testPhase, if_pos ht, testEvent_test_metrics]
    have htr : (stepState c e n s).tr_metrics =
        (evalPhase c e n (reportPhase c e n (decayPhase c n (trainPhase e n
          (periodicPhase c n s))))).tr_metrics := by
      show (testPhase c e n (evalPhase c e n _)).tr_metrics = _
      rw [testPhase_tr_metrics]
    refine ⟨rfl, fun _ => rfl, ?_, ?_, ?_⟩
    · intro h
      exact absurd rfl h
    · rw [htr]
      exact ⟨[], by simp⟩
    · rw [hte]
      exact ⟨[], by simp⟩

end SavedSpec

lemma subLoopSum_eq (f : ℕ → ℚ) :
    ∀ (l : List ℕ) (acc : ℚ), subLoopSum f l acc = acc + (l.map f).sum := by
  intro l
  induction l with
  | nil => intro acc; simp [subLoopSum]
  | cons i t ih =>
    intro acc
    have h1 : subLoopSum f (i :: t) acc = subLoopSum f t (acc + f i) := rfl
    rw [h1, ih]
    simp
    ring

/-! ### The claims -/

/-- C1: for every step, the five interval actions of one loop
iteration fire exactly as: checkpoint iff `step % save_interval == 0`
and `step != 0`; report iff `(step + 1) % report_interval == 0` and
`step != 0`; evaluation iff `step + 1` is in `evaluation_interval` and
`step != 0`; test iff `step + 1` is in `test_intervals` and
`step != 0`; decay iff `step % lr_decay_intervals == 0` and
`step != 0`.  At step 0 no interval action fires whatever the
configured intervals: only the batch draw and the gradient step
happen. -/
theorem interval_actions_fire_iff (c : Config) (e : Env) (s : TrainState)
    (n : ℕ) :
    (Action.checkpoint ∈ (stepBody c e n s).2 ↔
      n % c.save_interval = 0 ∧ n ≠ 0) ∧
    (Action.report ∈ (stepBody c e n s).2 ↔
      (n + 1) % c.report_interval = 0 ∧ n ≠ 0) ∧
    (Action.evaluate ∈ (stepBody c e n s).2 ↔
      (n + 1) ∈ c.evaluation_interval ∧ n ≠ 0) ∧
    (Action.test ∈ (stepBody c e n s).2 ↔
      (n + 1) ∈ c.test_intervals ∧ n ≠ 0) ∧
    (Action.decay ∈ (stepBody c e n s).2 ↔
      n % c.lr_decay_intervals = 0 ∧ n ≠ 0) ∧
    (stepBody c e 0 s).2 = [Action.drawBatch, Action.gradStep] := by
  refine ⟨?_, ?_, ?_, ?_, ?_, ?_⟩ <;>
    (simp only [stepBody, stepActions, List.mem_append]
     split_ifs <;> simp_all)

/-- C2: within one iteration the co-firing actions execute in the
fixed order checkpoint, batch draw, gradient step, decay, report,
evaluation, test — the iteration's action trace is always a sublist of
that canonical order, and the batch draw and gradient step occur in
every iteration. -/
theorem actions_in_fixed_order (c : Config) (e : Env) (s : TrainState)
    (n : ℕ) :
    List.Sublist (stepBody c e n s).2
      [Action.checkpoint, Action.drawBatch, Action.gradStep, Action.decay,
       Action.report, Action.evaluate, Action.test] ∧
    Action.drawBatch ∈ (stepBody c e n s).2 ∧
    Action.gradStep ∈ (stepBody c e n s).2 := by
  refine ⟨?_, ?_, ?_⟩
  · show List.Sublist (stepActions c n) _
    unfold stepActions
    split_ifs <;> decide
  · show Action.drawBatch ∈ stepActions c n
    unfold stepActions
    split_ifs <;> decide
  · show Action.gradStep ∈ stepActions c n
    unfold stepActions
    split_ifs <;> decide

/-- C5: per phase, offering a freshly flushed phase-average PSNR to
the best-score tracking updates the stored best and appends a
best-checkpoint save exactly when the new score strictly exceeds the
current best; on a tie or a drop the best and the save log are
unchanged.  Both stored bests start at the sentinel 0. -/
theorem best_tracker_strict_improvement (c : Config) (e : Env) (n : ℕ)
    (s : TrainState) :
    initState.best_eval_psnr = 0 ∧ initState.best_test_psnr = 0 ∧
    ((evalEvent c e n s).best_eval_psnr =
      if s.best_eval_psnr < (evalFlush c e n s).psnr then
        (evalFlush c e n s).psnr else s.best_eval_psnr) ∧
    (∃ ck, (evalEvent c e n s).saved =
      if s.best_eval_psnr < (evalFlush c e n s).psnr then
        s.saved ++ [(Cause.bestEval, ck)] else s.saved) ∧
    ((testEvent e n s).best_test_psnr =
      if s.best_test_psnr < (testFlush e n s).psnr then
        (testFlush e n s).psnr else s.best_test_psnr) ∧
    (∃ ck, (testEvent e n s).saved =
      if s.best_test_psnr < (testFlush e n s).psnr then
        s.saved ++ [(Cause.bestTest, ck)] else s.saved) := by
  refine ⟨rfl, rfl, ?_, ⟨mkCheckpoint n (evalAppended c e n s),
    evalEvent_saved c e n s⟩, ?_, ⟨mkCheckpointNoVal n (testAppended e n s),
    testEvent_saved e n s⟩⟩
  · rw [evalEvent_best_eval]
    rcases lt_or_le s.best_eval_psnr (evalFlush c e n s).psnr with h | h
    · rw [if_pos h, max_eq_right h.le]
    · rw [if_neg (not_lt.mpr h), max_eq_left h]
  · rw [testEvent_best_test]
    rcases lt_or_le s.best_test_psnr (testFlush e n s).psnr with h | h
    · rw [if_pos h, max_eq_right h.le]
    · rw [if_neg (not_lt.mpr h), max_eq_left h]

/-- C6: on a nonempty source of length `L`, every draw from the cyclic
feeder returns a batch (`some`), never an end-of-data condition; the
`n`-th draw returns batch `n % L`, so within a pass the batches are
consecutive with none skipped or duplicated; a restart happens exactly
at each fresh pass boundary after the first, and the draw that
restarts returns the first batch of the new pass. -/
theorem cyclic_feeder_never_exhausts (L : ℕ) (hL : 0 < L) (n : ℕ) :
    ∃ b r, feederDraw L n = some (b, r) ∧ b = n % L ∧
      (r = true ↔ n ≠ 0 ∧ n % L = 0) ∧ (r = true → b = 0) := by
  refine ⟨n % L, decide (n ≠ 0 ∧ n % L = 0), feederDraw_eq L hL n, rfl,
    ?_, ?_⟩
  · constructor
    · intro h
      exact of_decide_eq_true h
    · intro h
      exact decide_eq_true h
  · intro h
    exact (of_decide_eq_true h).2

/-- Witness for C6 at `L = 3`, `n = 7`. -/
theorem cyclic_feeder_never_exhausts_witness :
    ∃ b r, feederDraw 3 7 = some (b, r) ∧ b = 7 % 3 ∧
      (r = true ↔ 7 ≠ 0 ∧ 7 % 3 = 0) ∧ (r = true → b = 0) :=
  cyclic_feeder_never_exhausts 3 (by norm_num) 7

/-- C7 as stated is false: drawing `N = L + k` batches does not make
exactly `k` restarts — at `L = 2`, `k = 2` (4 draws from a 2-batch
source) exactly one restart happens, not two. -/
theorem restart_count_not_k :
    ¬ ∀ L k : ℕ, 0 < L → 1 ≤ k → countRestarts L (L + k) = k := by
  intro h
  have h22 := h 2 2 (by norm_num) (by norm_num)
  have hc : countRestarts 2 4 = 1 := by decide
  rw [show (2 + 2 : ℕ) = 4 from rfl, hc] at h22
  exact absurd h22 (by norm_num)

/-- C7 amended: drawing `N = L + k` batches (`k ≥ 1`) from a source of
length `L > 0` makes exactly `1 + (k - 1) / L` restarts (one per
completed pass), and every draw of the request returns batch `n % L`
of its pass, so each restart begins a fresh pass with no batch
omitted from any single pass. -/
theorem restart_count_formula (L k : ℕ) (hL : 0 < L) (hk : 1 ≤ k) :
    countRestarts L (L + k) = 1 + (k - 1) / L ∧
    ∀ n, n < L + k →
      feederDraw L n = some (n % L, decide (n ≠ 0 ∧ n % L = 0)) := by
  constructor
  · have hfilter : (Finset.range (L + k)).filter
        (fun n => (feederDraw L n).map Prod.snd = some true) =
        (Finset.Ioc 0 (L + k - 1)).filter (fun n => L ∣ n) := by
      ext m
      constructor
      · intro hm
        have h1 := Finset.mem_filter.mp hm
        have h2 : m < L + k := Finset.mem_range.mp h1.1
        have h3 := h1.2
        rw [feederDraw_eq L hL m] at h3
        have h4 : decide (m ≠ 0 ∧ m % L = 0) = true := by simpa using h3
        have h5 := of_decide_eq_true h4
        refine Finset.mem_filter.mpr ⟨Finset.mem_Ioc.mpr ⟨?_, ?_⟩, ?_⟩
        · omega
        · omega
        · exact Nat.dvd_of_mod_eq_zero h5.2
      · intro hm
        have h1 := Finset.mem_filter.mp hm
        have h2 := Finset.mem_Ioc.mp h1.1
        have h3 : m % L = 0 := Nat.mod_eq_zero_of_dvd h1.2
        refine Finset.mem_filter.mpr ⟨Finset.mem_range.mpr (by omega), ?_⟩
        rw [feederDraw_eq L hL m]
        have hand : m ≠ 0 ∧ m % L = 0 := ⟨by omega, h3⟩
        simp [hand]
    rw [countRestarts, hfilter, Nat.Ioc_filter_dvd_card_eq_div]
    have hrw : L + k - 1 = (k - 1) + L := by omega
    rw [hrw, Nat.add_div_right _ hL]
    omega
  · intro n _
    exact feederDraw_eq L hL n

/-- Witness for the amended C7 at `L = 2`, `k = 3`. -/
theorem restart_count_formula_witness :
    countRestarts 2 (2 + 3) = 1 + (3 - 1) / 2 :=
  (restart_count_formula 2 3 (by norm_num) (by norm_num)).1

/-- C9: the three metric histories are append-only — one loop
iteration either leaves a history unchanged or appends exactly one
snapshot to its end, and hence after every step each history is a
prefix of every later value of that history. -/
theorem metric_histories_append_only (c : Config) (e : Env) :
    (∀ n s,
      ((stepBody c e n s).1.tr_metrics = s.tr_metrics ∨
        ∃ x, (stepBody c e n s).1.tr_metrics = s.tr_metrics ++ [x]) ∧
      ((stepBody c e n s).1.val_metrics = s.val_metrics ∨
        ∃ x, (stepBody c e n s).1.val_metrics = s.val_metrics ++ [x]) ∧
      ((stepBody c e n s).1.test_metrics = s.test_metrics ∨
        ∃ x, (stepBody c e n s).1.test_metrics = s.test_metrics ++ [x])) ∧
    (∀ m n, m ≤ n →
      (runSteps c e m).tr_metrics <+: (runSteps c e n).tr_metrics ∧
      (runSteps c e m).val_metrics <+: (runSteps c e n).val_metrics ∧
      (runSteps c e m).test_metrics <+: (runSteps c e n).test_metrics) := by
  constructor
  · intro n s
    exact ⟨stepState_tr_cases c e n s, stepState_val_cases c e n s,
      stepState_test_cases c e n s⟩
  · intro m n h
    exact runSteps_hist_mono c e m n h

/-- C10: after any number of iterations, `best_eval_psnr` equals the
maximum of 0 and every `psnr` recorded in the validation history, and
`best_test_psnr` equals the maximum of 0 and every `psnr` recorded in
the test history; both bests are monotonically non-decreasing over the
run. -/
theorem best_psnr_invariant (c : Config) (e : Env) (n : ℕ) :
    (runSteps c e n).best_eval_psnr =
      foldMaxPsnr (runSteps c e n).val_metrics ∧
    (runSteps c e n).best_test_psnr =
      foldMaxPsnr (runSteps c e n).test_metrics ∧
    ∀ m, m ≤ n →
      (runSteps c e m).best_eval_psnr ≤ (runSteps c e n).best_eval_psnr ∧
      (runSteps c e m).best_test_psnr ≤ (runSteps c e n).best_test_psnr := by
  have hinv : ∀ k, (runSteps c e k).best_eval_psnr =
      foldMaxPsnr (runSteps c e k).val_metrics ∧
      (runSteps c e k).best_test_psnr =
        foldMaxPsnr (runSteps c e k).test_metrics := by
    intro k
    induction k with
    | zero => exact ⟨rfl, rfl⟩
    | succ m ih => exact stepState_best_inv c e m _ ih.1 ih.2
  refine ⟨(hinv n).1, (hinv n).2, ?_⟩
  intro m hm
  induction n, hm using Nat.le_induction with
  | base => exact ⟨le_refl _, le_refl _⟩
  | succ k hmk ih =>
    have hs := stepState_best_mono c e k (runSteps c e k)
    exact ⟨ih.1.trans hs.1, ih.2.trans hs.2⟩

/-- C3 amended: every checkpoint saved during a run bundles the step
counter at which it was saved, the trainable-state and optimizer-state
references, the training and test histories as they stood at the
moment of saving (hence prefixes of the final histories), and — for
the periodic and best-eval causes — the validation history as it
stood; the best-test bundle instead omits the validation history
entirely, because that entry is commented out in the source. -/
theorem checkpoint_bundle_contents (c : Config) (e : Env) (N : ℕ)
    (cz : Cause) (ck : Checkpoint)
    (hmem : (cz, ck) ∈ (runSteps c e N).saved) :
    ck.step < N ∧
    (cz = Cause.bestTest → ck.val_metrics = none) ∧
    (cz ≠ Cause.bestTest → ∃ v, ck.val_metrics = some v ∧
      v <+: (runSteps c e N).val_metrics) ∧
    ck.tr_metrics <+: (runSteps c e N).tr_metrics ∧
    ck.test_metrics <+: (runSteps c e N).test_metrics := by
  revert hmem
  induction N with
  | zero =>
    intro hmem
    exact absurd hmem (by simp [runSteps, initState])
  | succ m ih =>
    intro hmem
    rcases stepState_saved_spec c e m (runSteps c e m) (cz, ck) hmem with
      hold | hnew
    · have h := ih hold
      have hg := stepState_hist_grow c e m (runSteps c e m)
      refine ⟨Nat.lt_succ_of_lt h.1, h.2.1, ?_, h.2.2.2.1.trans hg.1,
        h.2.2.2.2.trans hg.2.2⟩
      intro hne
      obtain ⟨v, hv, hvp⟩ := h.2.2.1 hne
      exact ⟨v, hv, hvp.trans hg.2.1⟩
    · obtain ⟨hstep, hbt, hnbt, htr, hte⟩ := hnew
      exact ⟨by rw [hstep]; exact Nat.lt_succ_self m, hbt, hnbt, htr, hte⟩

/-- C8: at every step where the test action is due, the test sub-loop
iterates the full test source exactly once — its item sequence has one
entry per test item, each counted exactly once, none out of range —
and the snapshot appended to the test history carries the accumulated
loss sum divided by the test source length. -/
theorem test_event_full_pass_average (c : Config) (e : Env) (n : ℕ)
    (h : (n + 1) ∈ c.test_intervals ∧ n ≠ 0) :
    (runSteps c e (n + 1)).test_metrics = (runSteps c e n).test_metrics ++
      [{ loss := ((testSource e).map (e.testLoss n)).sum / (e.testLen : ℚ)
         psnr := e.testPsnr n
         ssim := e.testSsim n }] ∧
    (testSource e).length = e.testLen ∧
    (∀ i, i < e.testLen → (testSource e).count i = 1) ∧
    (∀ i, i ∈ testSource e → i < e.testLen) := by
  refine ⟨?_, List.length_range e.testLen, ?_, ?_⟩
  · have hzero : (runSteps c e n).test_report_loss = 0 :=
      (runSteps_reports_zero c e n).2
    have h5rep : (evalPhase c e n (reportPhase c e n (decayPhase c n
        (trainPhase e n (periodicPhase c n (runSteps c e n)))))).test_report_loss
        = 0 := by simp [hzero]
    have h5te : (evalPhase c e n (reportPhase c e n (decayPhase c n
        (trainPhase e n (periodicPhase c n
          (runSteps c e n)))))).test_metrics = (runSteps c e n).test_metrics :=
      by simp
    have hflush : testFlush e n (evalPhase c e n (reportPhase c e n
        (decayPhase c n (trainPhase e n (periodicPhase c n
          (runSteps c e n)))))) =
        { loss := ((testSource e).map (e.testLoss n)).sum / (e.testLen : ℚ)
          psnr := e.testPsnr n
          ssim := e.testSsim n } := by
      unfold testFlush
      rw [h5rep, subLoopSum_eq, zero_add]
    rw [runSteps_succ]
    unfold stepState
    rw [testPhase, if_pos h, testEvent_test_metrics, h5te, hflush]
  · intro i hi
    exact List.count_eq_one_of_mem (List.nodup_range _)
      (List.mem_range.mpr hi)
  · intro i hi
    exact List.mem_range.mp hi

/-- A tiny concrete run for the concrete theorems below: evaluation
due at step 1 (`2 ∈ [2]`), test due at step 2 (`3 ∈ [3]`), no periodic
checkpoint, report or decay within the first three steps. -/
def cRun : Config :=
  { steps := 3
    save_interval := 1000
    report_interval := 1000
    test_intervals := [3]
    evaluation_interval := [2]
    lr_decay_intervals := 1000
    val_steps := 1 }

/-- Oracles for the tiny run: singleton loaders, all losses 0, all
flushed PSNRs 1. -/
def eRun : Env :=
  { trainLen := 1
    valLen := 1
    testLen := 1
    trainLoss := fun _ => 0
    trPsnr := fun _ => 0
    trSsim := fun _ => 0
    valLoss := fun _ _ => 0
    valPsnr := fun _ => 1
    valSsim := fun _ => 0
    testLoss := fun _ _ => 0
    testPsnr := fun _ => 1
    testSsim := fun _ => 0 }

lemma runSteps_cRun_three : runSteps cRun eRun 3 =
    stepState cRun eRun 2 (stepState cRun eRun 1
      (stepState cRun eRun 0 initState)) := rfl

/-- C3 is false as stated: in the tiny run, the best-test save at
step 2 produces a bundle whose validation history is absent, even
though the run's validation history holds one snapshot at that
moment; only the best-eval bundle carries it. -/
theorem best_test_checkpoint_omits_val_history :
    (runSteps cRun eRun 3).saved.map (fun p => (p.1, p.2.val_metrics)) =
      [(Cause.bestEval, some [{ loss := 0, psnr := 1, ssim := 0 }]),
       (Cause.bestTest, none)] ∧
    (runSteps cRun eRun 3).val_metrics =
      [{ loss := 0, psnr := 1, ssim := 0 }] := by
  rw [runSteps_cRun_three]
  norm_num [stepState, periodicPhase, trainPhase, decayPhase, reportPhase,
    evalPhase, testPhase, evalEvent, testEvent, evalAppended, testAppended,
    evalFlush, testFlush, subLoopSum, effValSteps, mkCheckpoint,
    mkCheckpointNoVal, initState, cRun, eRun, testSource, feederStep,
    feederNext, List.range_succ]

/-- Witness for the amended C3: the best-eval bundle of the tiny run
is in the save log, and the theorem applies to it. -/
theorem checkpoint_bundle_contents_witness :
    (⟨1, 2, 2, [], some [{ loss := 0, psnr := 1, ssim := 0 }], []⟩ :
      Checkpoint).step < 3 ∧
    (⟨1, 2, 2, [], some [{ loss := 0, psnr := 1, ssim := 0 }], []⟩ :
      Checkpoint).tr_metrics <+: (runSteps cRun eRun 3).tr_metrics :=
  have h := checkpoint_bundle_contents cRun eRun 3 Cause.bestEval
    ⟨1, 2, 2, [], some [{ loss := 0, psnr := 1, ssim := 0 }], []⟩
    (by
      rw [runSteps_cRun_three]
      norm_num [stepState, periodicPhase, trainPhase, decayPhase,
        reportPhase, evalPhase, testPhase, evalEvent, testEvent,
        evalAppended, testAppended, evalFlush, testFlush, subLoopSum,
        effValSteps, mkCheckpoint, mkCheckpointNoVal, initState, cRun, eRun,
        testSource, feederStep, feederNext, List.range_succ])
  ⟨h.1, h.2.2.2.1⟩

/-- Witness for C8 at the tiny run's test event (step 2). -/
theorem test_event_full_pass_average_witness :
    (runSteps cRun eRun 3).test_metrics =
      (runSteps cRun eRun 2).test_metrics ++
        [{ loss := ((testSource eRun).map (eRun.testLoss 2)).sum /
             (eRun.testLen : ℚ)
           psnr := eRun.testPsnr 2
           ssim := eRun.testSsim 2 }] ∧
    (testSource eRun).length = eRun.testLen :=
  ⟨(test_event_full_pass_average cRun eRun 2 (by norm_num [cRun])).1,
   (test_event_full_pass_average cRun eRun 2 (by norm_num [cRun])).2.1⟩

/-- Witness for C9: histories after 1 step are prefixes of the
histories after 3 steps of the tiny run. -/
theorem metric_histories_append_only_witness :
    (runSteps cRun eRun 1).tr_metrics <+: (runSteps cRun eRun 3).tr_metrics ∧
    (runSteps cRun eRun 1).val_metrics <+:
      (runSteps cRun eRun 3).val_metrics ∧
    (runSteps cRun eRun 1).test_metrics <+:
      (runSteps cRun eRun 3).test_metrics :=
  (metric_histories_append_only cRun eRun).2 1 3 (by norm_num)

/-- Witness for C10 on the tiny run. -/
theorem best_psnr_invariant_witness :
    (runSteps cRun eRun 3).best_eval_psnr =
      foldMaxPsnr (runSteps cRun eRun 3).val_metrics ∧
    (runSteps cRun eRun 1).best_eval_psnr ≤
      (runSteps cRun eRun 3).best_eval_psnr :=
  ⟨(best_psnr_invariant cRun eRun 3).1,
   ((best_psnr_invariant cRun eRun 3).2.2 1 (by norm_num)).1⟩

/-- Config for the C4 denominator check: `val_steps = 1`. -/
def cDen : Config :=
  { steps := 6
    save_interval := 1000
    report_interval := 1000
    test_intervals := []
    evaluation_interval := [6]
    lr_decay_intervals := 1000
    val_steps := 1 }

/-- Oracles for the C4 denominator check: a validation loader of
length 2, every per-batch validation loss equal to 1. -/
def eDen : Env :=
  { trainLen := 1
    valLen := 2
    testLen := 1
    trainLoss := fun _ => 0
    trPsnr := fun _ => 0
    trSsim := fun _ => 0
    valLoss := fun _ _ => 1
    valPsnr := fun _ => 0
    valSsim := fun _ => 0
    testLoss := fun _ _ => 0
    testPsnr := fun _ => 0
    testSsim := fun _ => 0 }

/-- C4 exposes a code bug: with `val_steps = 1`,
`len(validation_loader) = 2` and every consumed mini-batch loss 1, the
validation event flushes loss `1/2` — the accumulated sum divided by
`len(validation_loader)` — whereas dividing by the `val_steps`
mini-batches actually consumed, which the claim (and the spec's stated
intent) requires, gives 1. -/
theorem val_loss_wrong_denominator :
    (evalEvent cDen eDen 5 initState).val_metrics.map Snapshot.loss =
      [1 / 2] ∧
    subLoopSum (eDen.valLoss 5) (List.range (effValSteps cDen eDen)) 0 /
      (cDen.val_steps : ℚ) = 1 ∧
    (1 / 2 : ℚ) ≠ 1 := by
  refine ⟨?_, ?_, by norm_num⟩
  · norm_num [evalEvent, evalAppended, evalFlush, subLoopSum, effValSteps,
      initState, cDen, eDen, List.range_succ]
  · norm_num [subLoopSum, effValSteps, cDen, eDen, List.range_succ]

end MDCUN
